import Mathlib

/-!
# Verification of the Terra simulation core

Shallow embedding of the Terra repository (`src/terra/sim.py`,
`src/terra/ui/clock.py`, `src/terra/ui/views.py`) and proofs about it.

Modelling conventions:
* Python `int` is `Int`; Python `float` accumulators and time spans are `ℚ`
  (the properties verified here depend only on ordered-field comparisons,
  never on binary floating-point rounding).
* The process-wide random source (`random.randrange`, `random.choice`,
  `random.choices`) is modelled by an explicit oracle: either a stream
  `ℕ → ℕ` consumed at known offsets, or a directly supplied `Direction`
  choice for the automata.  Every theorem quantifies over all oracles, so
  the results hold for every possible sequence of random draws.
* Python exceptions (`ValueError` from `randrange`, `IndexError` from list
  item assignment) are modelled with `Except` / `Option` results.
-/

namespace Terra

/-- `_Direction(enum.Enum)` from `sim.py`: the four cardinal directions.
`enum.auto` numbers them 1..4 in declaration order. -/
inductive Direction
  | RIGHT
  | UP
  | LEFT
  | DOWN
deriving DecidableEq, Repr

/-- The `enum.auto` value of a direction (RIGHT=1, UP=2, LEFT=3, DOWN=4). -/
def Direction.value : Direction → Nat
  | .RIGHT => 1
  | .UP => 2
  | .LEFT => 3
  | .DOWN => 4

/-- `_Direction.reverse`: right↔left, up↔down. -/
def Direction.reverse : Direction → Direction
  | .RIGHT => .LEFT
  | .UP => .DOWN
  | .LEFT => .RIGHT
  | .DOWN => .UP

/-- State of `_Wanderer`: position and the private energy accumulator. -/
structure Wanderer where
  y : Int
  x : Int
  energy : ℚ
deriving DecidableEq, Repr

/-- `_Wanderer._VELOCITY` -/
def Wanderer.VELOCITY : ℚ := 200

/-- `_Wanderer.__init__(y, x)` -/
def Wanderer.init (y x : Int) : Wanderer := ⟨y, x, 0⟩

/-- `_Wanderer.render_id` (fixed, set in `__init__`). -/
def Wanderer.render_id (_w : Wanderer) : Int := 0x40

/-- `_Wanderer._move`: the direction drawn by `random.choice(tuple(_Direction))`
is supplied as the oracle argument `choice`. -/
def Wanderer.move (w : Wanderer) (choice : Direction) : Int × Int :=
  match choice with
  | .RIGHT => (w.y, w.x + 1)
  | .UP => (w.y - 1, w.x)
  | .LEFT => (w.y, w.x - 1)
  | .DOWN => (w.y + 1, w.x)

/-- `_Wanderer.update(elapsed, screenh, screenw)`. -/
def Wanderer.update (w : Wanderer) (elapsed : ℚ) (screenh screenw : Int)
    (choice : Direction) : Wanderer :=
  let energy := w.energy + elapsed
  if energy > Wanderer.VELOCITY then
    let m := w.move choice
    if 0 ≤ m.1 ∧ m.1 < screenh ∧ 0 ≤ m.2 ∧ m.2 < screenw then
      { y := m.1, x := m.2, energy := 0 }
    else
      { w with energy := 0 }
  else
    { w with energy := energy }

/-- State of `_Zipper`: position, the two accumulators, and the persisted
direction. -/
structure Zipper where
  y : Int
  x : Int
  attention : ℚ
  energy : ℚ
  direction : Direction
deriving DecidableEq, Repr

/-- `_Zipper._VELOCITY` -/
def Zipper.VELOCITY : ℚ := 50

/-- `_Zipper._SHIFT` -/
def Zipper.SHIFT : ℚ := 1000

/-- `_Zipper.__init__(y, x)` -/
def Zipper.init (y x : Int) : Zipper := ⟨y, x, 0, 0, .RIGHT⟩

/-- `_Zipper.render_id`: `(0x1a, 0x18, 0x1b, 0x19)[self._direction.value - 1]`. -/
def Zipper.render_id (z : Zipper) : Int :=
  [0x1a, 0x18, 0x1b, 0x19].getD (z.direction.value - 1) 0

/-- `_Zipper._move`: one step in the persisted direction. -/
def Zipper.move (z : Zipper) : Int × Int :=
  match z.direction with
  | .RIGHT => (z.y, z.x + 1)
  | .UP => (z.y - 1, z.x)
  | .LEFT => (z.y, z.x - 1)
  | .DOWN => (z.y + 1, z.x)

/-- `_Zipper.update(elapsed, screenh, screenw)`; the direction drawn by
`random.choice` on the attention threshold is the oracle argument `choice`. -/
def Zipper.update (z : Zipper) (elapsed : ℚ) (screenh screenw : Int)
    (choice : Direction) : Zipper :=
  let z := { z with energy := z.energy + elapsed,
                    attention := z.attention + elapsed }
  let z :=
    if z.energy > Zipper.VELOCITY then
      let z := { z with energy := 0 }
      let m := z.move
      if 0 ≤ m.1 ∧ m.1 < screenh ∧ 0 ≤ m.2 ∧ m.2 < screenw then
        { z with y := m.1, x := m.2 }
      else
        { z with direction := z.direction.reverse }
    else z
  if z.attention > Zipper.SHIFT then
    { z with attention := 0, direction := choice }
  else z

/-- State of `_Bouncer`: position, energy accumulator, the two axis
directions (`_directions` is the list `[Y-axis dir, X-axis dir]`), and the
index of the active axis. -/
structure Bouncer where
  y : Int
  x : Int
  energy : ℚ
  dirY : Direction
  dirX : Direction
  active_direction : Nat
deriving DecidableEq, Repr

/-- `_Bouncer._VELOCITY` -/
def Bouncer.VELOCITY : ℚ := 100

/-- `_Bouncer.__init__(y, x)`: `_directions = [UP, RIGHT]`, active index 0. -/
def Bouncer.init (y x : Int) : Bouncer := ⟨y, x, 0, .UP, .RIGHT, 0⟩

/-- `_Bouncer.render_id` (fixed, set in `__init__`). -/
def Bouncer.render_id (_b : Bouncer) : Int := 0xe8

/-- `self._directions[self._active_direction]` (the index is always 0 or 1). -/
def Bouncer.activeDir (b : Bouncer) : Direction :=
  if b.active_direction = 0 then b.dirY else b.dirX

/-- `_Bouncer._move`: one step in the active axis direction. -/
def Bouncer.move (b : Bouncer) : Int × Int :=
  match b.activeDir with
  | .RIGHT => (b.y, b.x + 1)
  | .UP => (b.y - 1, b.x)
  | .LEFT => (b.y, b.x - 1)
  | .DOWN => (b.y + 1, b.x)

/-- `_Bouncer.update(elapsed, screenh, screenw)`. -/
def Bouncer.update (b : Bouncer) (elapsed : ℚ) (screenh screenw : Int) :
    Bouncer :=
  let b := { b with energy := b.energy + elapsed }
  if b.energy > Bouncer.VELOCITY then
    let m := b.move
    let b :=
      if m.1 < 0 ∨ m.1 ≥ screenh then
        { b with dirY := b.dirY.reverse }
      else if m.2 < 0 ∨ m.2 ≥ screenw then
        { b with dirX := b.dirX.reverse }
      else
        { b with y := m.1, x := m.2,
                 active_direction := (b.active_direction + 1) % 2 }
    { b with energy := 0 }
  else b

/-- The polymorphic entity roster element: one of the three automata. -/
inductive Entity
  | wanderer : Wanderer → Entity
  | zipper : Zipper → Entity
  | bouncer : Bouncer → Entity
deriving DecidableEq, Repr

/-- Common `y` accessor. -/
def Entity.y : Entity → Int
  | .wanderer w => w.y
  | .zipper z => z.y
  | .bouncer b => b.y

/-- Common `x` accessor. -/
def Entity.x : Entity → Int
  | .wanderer w => w.x
  | .zipper z => z.x
  | .bouncer b => b.x

/-- Common `render_id` accessor. -/
def Entity.render_id : Entity → Int
  | .wanderer w => w.render_id
  | .zipper z => z.render_id
  | .bouncer b => b.render_id

/-- Common `update(elapsed, screenh, screenw)` dispatch; `choice` is the
random-direction oracle used by Wanderer (movement) and Zipper (attention). -/
def Entity.update (e : Entity) (elapsed : ℚ) (screenh screenw : Int)
    (choice : Direction) : Entity :=
  match e with
  | .wanderer w => .wanderer (w.update elapsed screenh screenw choice)
  | .zipper z => .zipper (z.update elapsed screenh screenw choice)
  | .bouncer b => .bouncer (b.update elapsed screenh screenw)

/-- The position invariant: the entity lies within `[0,h) × [0,w)`. -/
def Entity.inBounds (e : Entity) (h w : Int) : Prop :=
  0 ≤ e.y ∧ e.y < h ∧ 0 ≤ e.x ∧ e.x < w

instance (e : Entity) (h w : Int) : Decidable (e.inBounds h w) := by
  unfold Entity.inBounds; infer_instance

/-- An oracle for the process-wide random source: an arbitrary stream of
naturals consumed at known offsets. -/
abbrev RandStream := ℕ → ℕ

/-- `random.randrange(n)` drawing the stream value at offset `i`: returns a
value in `[0, n)`; raises `ValueError` ("empty range for randrange") when
`n < 1`, exactly as CPython does. -/
def randrange (g : RandStream) (i : ℕ) (n : Int) : Except String Int :=
  if n ≤ 0 then .error "empty range for randrange"
  else .ok ((g i : Int) % n)

/-- `SimpleMap._CHAR_MAP`: the fixed glyph alphabet. -/
def CHAR_MAP : List Int := [0x20, 0x5, 0x6, 0x27, 0x2c, 0x3a, 0x3b]

/-- `SimpleMap._WEIGHTS`: one dominant weight and equal low weights
(`100 - 5*6 = 70` followed by six `5`s). -/
def WEIGHTS : List Int :=
  (100 - 5 * ((CHAR_MAP.length : Int) - 1)) ::
    List.replicate (CHAR_MAP.length - 1) 5

/-- `SimpleMap.__init__(size)` / `_buildcells`:
`random.choices(_CHAR_MAP, weights=_WEIGHTS, k=size)` draws `size` elements
of the population (every weight is positive, so each draw can be any of the
7 glyphs); a non-positive `k` yields the empty list.  The oracle `g`
supplies, for each of the `size` draws, the chosen population index. -/
def buildcells (g : RandStream) (size : Int) : List Int :=
  (List.range size.toNat).map fun i => CHAR_MAP[(g i) % CHAR_MAP.length]!

/-- `SimpleMap`: a map composed of cells. -/
structure SimpleMap where
  size : Int
  cells : List Int
deriving DecidableEq, Repr

/-- `SimpleMap(size)` construction with random oracle `g`. -/
def SimpleMap.create (g : RandStream) (size : Int) : SimpleMap :=
  ⟨size, buildcells g size⟩

/-- `Simulation` state.  In Python `world_map`, `height` and `width` do not
exist until the first `create_map` call (reading them earlier raises
`AttributeError`); they are given inert zero defaults here, and every
theorem below concerns states produced by `create_map`. -/
structure Simulation where
  entities : List Entity
  world_map : SimpleMap
  height : Int
  width : Int
deriving DecidableEq, Repr

/-- `Simulation.__init__`: `self._entities = []`. -/
def Simulation.init : Simulation := ⟨[], ⟨0, []⟩, 0, 0⟩

/-- `Simulation.create_map(height, width)` with random oracle `g`: builds a
new `SimpleMap` over `height * width` cells (consuming one stream value per
cell), then appends a `_Wanderer`, a `_Zipper` and a `_Bouncer` seeded by
six further `randrange` draws.  A `ValueError` from `randrange` (when a
dimension is `< 1`) propagates as `.error`; Python additionally leaves the
already-assigned `world_map`/`height`/`width` behind in that case, a partial
state no claim depends on. -/
def Simulation.create_map (s : Simulation) (g : RandStream)
    (height width : Int) : Except String Simulation := do
  let wm := SimpleMap.create g (height * width)
  let base := (height * width).toNat
  let wy ← randrange g base height
  let wx ← randrange g (base + 1) width
  let zy ← randrange g (base + 2) height
  let zx ← randrange g (base + 3) width
  let ey ← randrange g (base + 4) height
  let ex ← randrange g (base + 5) width
  .ok { entities := s.entities ++
          [.wanderer (Wanderer.init wy wx),
           .zipper (Zipper.init zy zx),
           .bouncer (Bouncer.init ey ex)],
        world_map := wm, height := height, width := width }

/-- Python list item assignment `l[i] = v`: a negative index counts from the
end; an index out of range raises `IndexError` (`none`). -/
def listSetItem (l : List Int) (i : Int) (v : Int) : Option (List Int) :=
  if 0 ≤ i ∧ i < (l.length : Int) then some (l.set i.toNat v)
  else if -(l.length : Int) ≤ i ∧ i < 0 then
    some (l.set ((l.length : Int) + i).toNat v)
  else none

/-- The flat index `entity.x + entity.y * width` used by `visible_map`. -/
def flatIdx (e : Entity) (width : Int) : Int := e.x + e.y * width

/-- `Simulation.visible_map`: a copy of the map cells with each entity's
`render_id` written at its flat index, in roster order. -/
def Simulation.visible_map (s : Simulation) : Option (List Int) :=
  s.entities.foldlM
    (fun tiles e => listSetItem tiles (flatIdx e s.width) e.render_id)
    s.world_map.cells

/-- `FPS` from `ui/clock.py`. -/
def FPS : Int := 30

/-- `_VSYNC = 1.0 / FPS`: the fixed per-tick time budget in seconds. -/
def VSYNC : ℚ := 1 / (FPS : ℚ)

/-- `FrameData` from `ui/clock.py` (floats in fractional seconds). -/
structure FrameData where
  blown_frames : Int := 0
  delta_time : ℚ := 0
  frame_left : ℚ := 0
  run_time : ℚ := 0
  total_frames : Int := 0
deriving DecidableEq, Repr

/-- `FrameData.delta_ms`. -/
def FrameData.delta_ms (f : FrameData) : ℚ := f.delta_time * 1000

/-- `FrameClock._end_frame`, with the measured wall time of the tick body
(`time.monotonic() - self._current`) supplied as `frame_elapsed`.  Returns
the updated frame record together with the duration passed to
`time.sleep` (`none` when the blown-frame branch returns without
sleeping). -/
def endFrame (f : FrameData) (frame_elapsed : ℚ) : FrameData × Option ℚ :=
  let f := { f with total_frames := f.total_frames + 1 }
  if frame_elapsed > VSYNC then
    ({ f with blown_frames := f.blown_frames + 1 }, none)
  else
    let f := { f with frame_left := VSYNC - frame_elapsed }
    (f, some f.frame_left)

/-- `FrameClock.__exit__(exc_type, exc_value, traceback)`: calls
`_end_frame()` unconditionally — also when the tick body raised, i.e. when
`exc` is `some` — and returns `False` (does not swallow the exception). -/
def exitFrame (f : FrameData) (frame_elapsed : ℚ) (_exc : Option String) :
    (FrameData × Option ℚ) × Bool :=
  (endFrame f frame_elapsed, false)

/-- A sequence of committed ticks: fold `_end_frame` over the list of
measured elapsed times, keeping the frame record. -/
def runTicks (f : FrameData) (es : List ℚ) : FrameData :=
  es.foldl (fun f e => (endFrame f e).1) f

/-- Visibility state of a `View`'s curses panel pair: the frame panel's
hidden flag, and the content panel's hidden flag (`none` when the view was
built without padding, so no separate content panel exists). -/
structure ViewVis where
  frame_hidden : Bool
  content_hidden : Option Bool
deriving DecidableEq, Repr

/-- `View.toggle_visibility` from `ui/views.py`: if the frame panel is
hidden, show it and (when present) the content panel; otherwise hide both. -/
def ViewVis.toggle_visibility (v : ViewVis) : ViewVis :=
  if v.frame_hidden then
    { frame_hidden := false,
      content_hidden := v.content_hidden.map fun _ => false }
  else
    { frame_hidden := true,
      content_hidden := v.content_hidden.map fun _ => true }

/-- The frame and content panels agree (trivially when there is no content
panel).  This holds at construction: `curses.panel.new_panel` creates both
panels shown. -/
def ViewVis.lockstep (v : ViewVis) : Prop :=
  ∀ b ∈ v.content_hidden, b = v.frame_hidden

instance (v : ViewVis) : Decidable v.lockstep := by
  unfold ViewVis.lockstep; infer_instance

/-- Python string slice `s[:stop]`: a negative `stop` counts from the end,
and the result is clamped to the string. -/
def pySliceTo (s : List Char) (stop : Int) : List Char :=
  if stop < 0 then s.take ((s.length : Int) + stop).toNat
  else s.take stop.toNat

/-- `View._set_title(width, title)` from `ui/views.py`, returning the title
string actually drawn at `addstr(0, 1, title)`:
`title_overflow = (width - 2) - len(title)`; when negative, the title is
replaced by `f'{title[:title_overflow - 1]}…'`. -/
def set_title (width : Int) (title : List Char) : List Char :=
  let title_overflow : Int := (width - 2) - (title.length : Int)
  if title_overflow < 0 then pySliceTo title (title_overflow - 1) ++ ['…']
  else title

/-! ## C1: the Bouncer bounce scenario -/

/-- C1 counterexample.  A Bouncer at `(0,0)` with axis directions
`[UP, RIGHT]` under `height=5, width=5`: the first threshold-crossing
update reverses the Y direction and stays at `(0,0)` — as the claim says —
but the active axis is NOT advanced on the rejected move, so the second
threshold-crossing update is again the Y-axis turn and moves the entity to
`(1,0)`, not to `(0,1)` as the claim states. -/
theorem C1_counterexample :
    ((Bouncer.init 0 0).update 150 5 5).update 150 5 5 =
      { y := 1, x := 0, energy := 0, dirY := .DOWN, dirX := .RIGHT,
        active_direction := 1 } ∧
    ¬ ((((Bouncer.init 0 0).update 150 5 5).update 150 5 5).y = 0 ∧
       (((Bouncer.init 0 0).update 150 5 5).update 150 5 5).x = 1) := by
  have h : ((Bouncer.init 0 0).update 150 5 5).update 150 5 5 =
      { y := 1, x := 0, energy := 0, dirY := .DOWN, dirX := .RIGHT,
        active_direction := 1 } := by
    norm_num [Bouncer.update, Bouncer.init, Bouncer.move, Bouncer.activeDir,
      Direction.reverse, Bouncer.VELOCITY]
  refine ⟨h, ?_⟩
  rw [h]
  simp

/-- C1 (amended): for any two threshold-crossing elapsed times, the first
update on the Y turn attempts row `-1`, is out-of-bounds, reverses the
Y-axis direction to `DOWN` and keeps position `(0,0)` and the Y turn; the
second threshold-crossing update is therefore again the Y-axis turn and
moves the entity to `(1,0)`, only then advancing to the X turn. -/
theorem C1_amended (e1 e2 : ℚ) (h1 : Bouncer.VELOCITY < e1)
    (h2 : Bouncer.VELOCITY < e2) :
    (Bouncer.init 0 0).update e1 5 5 =
      { y := 0, x := 0, energy := 0, dirY := .DOWN, dirX := .RIGHT,
        active_direction := 0 } ∧
    ((Bouncer.init 0 0).update e1 5 5).update e2 5 5 =
      { y := 1, x := 0, energy := 0, dirY := .DOWN, dirX := .RIGHT,
        active_direction := 1 } := by
  have hgen : ∀ e : ℚ, Bouncer.VELOCITY < e → (0 : ℚ) + e > Bouncer.VELOCITY := by
    intro e h
    rw [zero_add]
    exact h
  have first : (Bouncer.init 0 0).update e1 5 5 =
      { y := 0, x := 0, energy := 0, dirY := .DOWN, dirX := .RIGHT,
        active_direction := 0 } := by
    show Bouncer.update ⟨0, 0, 0, .UP, .RIGHT, 0⟩ e1 5 5 = _
    unfold Bouncer.update
    dsimp only
    rw [if_pos (hgen e1 h1)]
    simp [Bouncer.move, Bouncer.activeDir, Direction.reverse]
  refine ⟨first, ?_⟩
  rw [first]
  show Bouncer.update ⟨0, 0, 0, .DOWN, .RIGHT, 0⟩ e2 5 5 = _
  unfold Bouncer.update
  dsimp only
  rw [if_pos (hgen e2 h2)]
  simp [Bouncer.move, Bouncer.activeDir, Direction.reverse]

/-- Witness for `C1_amended` at `e1 = e2 = 150`. -/
theorem C1_amended_witness :
    Bouncer.VELOCITY < (150 : ℚ) ∧
    ((Bouncer.init 0 0).update 150 5 5 =
      { y := 0, x := 0, energy := 0, dirY := .DOWN, dirX := .RIGHT,
        active_direction := 0 } ∧
    ((Bouncer.init 0 0).update 150 5 5).update 150 5 5 =
      { y := 1, x := 0, energy := 0, dirY := .DOWN, dirX := .RIGHT,
        active_direction := 1 }) :=
  ⟨by norm_num [Bouncer.VELOCITY],
   C1_amended 150 150 (by norm_num [Bouncer.VELOCITY])
     (by norm_num [Bouncer.VELOCITY])⟩

/-! ## C6 and C10: the Frame Clock's end-of-tick accounting -/

/-- `_end_frame` on a blown frame. -/
lemma endFrame_blown (f : FrameData) (e : ℚ) (h : VSYNC < e) :
    endFrame f e =
      ({ f with total_frames := f.total_frames + 1,
                blown_frames := f.blown_frames + 1 }, none) := by
  unfold endFrame
  dsimp only
  rw [if_pos h]

/-- `_end_frame` on a frame within budget. -/
lemma endFrame_ok (f : FrameData) (e : ℚ) (h : ¬ VSYNC < e) :
    endFrame f e =
      ({ f with total_frames := f.total_frames + 1,
                frame_left := VSYNC - e }, some (VSYNC - e)) := by
  unfold endFrame
  dsimp only
  rw [if_neg h]

/-- C6 counterexample.  At `frame_elapsed = _VSYNC` exactly, the tick does
not exceed the budget, so the else-branch runs: `blown_frames` is unchanged
and the clock sleeps — but `frame_left` is set to `0`, which is not the
"positive remainder" the claim asserts. -/
theorem C6_counterexample :
    (endFrame ⟨0, 0, 0, 0, 0⟩ VSYNC).2 = some 0 ∧
    (endFrame ⟨0, 0, 0, 0, 0⟩ VSYNC).1.blown_frames = 0 ∧
    (endFrame ⟨0, 0, 0, 0, 0⟩ VSYNC).1.frame_left = 0 ∧
    ¬ 0 < (endFrame ⟨0, 0, 0, 0, 0⟩ VSYNC).1.frame_left := by
  rw [endFrame_ok _ _ (lt_irrefl VSYNC)]
  norm_num

/-- C6 (amended).  `_end_frame` always increments `total_frames` and is
invoked by `__exit__` even on abnormal exit.  If elapsed time exceeds the
budget `1/FPS`, `blown_frames` is incremented, no sleep occurs and
`frame_left` is untouched; otherwise `blown_frames` is unchanged,
`frame_left` is set to the **nonnegative** remainder `1/FPS - elapsed`
(positive exactly when the tick is strictly under budget) and the clock
sleeps for `frame_left`. -/
theorem C6_amended (f : FrameData) (elapsed : ℚ) (exc : Option String) :
    exitFrame f elapsed exc = (endFrame f elapsed, false) ∧
    (endFrame f elapsed).1.total_frames = f.total_frames + 1 ∧
    (VSYNC < elapsed →
      (endFrame f elapsed).1.blown_frames = f.blown_frames + 1 ∧
      (endFrame f elapsed).2 = none ∧
      (endFrame f elapsed).1.frame_left = f.frame_left) ∧
    (elapsed ≤ VSYNC →
      (endFrame f elapsed).1.blown_frames = f.blown_frames ∧
      (endFrame f elapsed).1.frame_left = VSYNC - elapsed ∧
      0 ≤ (endFrame f elapsed).1.frame_left ∧
      (elapsed < VSYNC → 0 < (endFrame f elapsed).1.frame_left) ∧
      (endFrame f elapsed).2 = some (VSYNC - elapsed)) := by
  refine ⟨rfl, ?_, fun h => ?_, fun h => ?_⟩
  · by_cases h : VSYNC < elapsed
    · rw [endFrame_blown f elapsed h]
    · rw [endFrame_ok f elapsed h]
  · rw [endFrame_blown f elapsed h]
    exact ⟨rfl, rfl, rfl⟩
  · rw [endFrame_ok f elapsed (not_lt.mpr h)]
    refine ⟨rfl, rfl, ?_, fun h2 => ?_, rfl⟩
    · show (0 : ℚ) ≤ VSYNC - elapsed
      linarith
    · show (0 : ℚ) < VSYNC - elapsed
      linarith

/-- Witness for `C6_amended` at a half-budget tick whose body raised. -/
theorem C6_amended_witness :
    exitFrame ⟨0, 0, 0, 0, 0⟩ (1 / 60) (some "boom") =
      (endFrame ⟨0, 0, 0, 0, 0⟩ (1 / 60), false) ∧
    (endFrame ⟨0, 0, 0, 0, 0⟩ (1 / 60)).1.total_frames = (0 : Int) + 1 ∧
    (VSYNC < (1 / 60 : ℚ) →
      (endFrame ⟨0, 0, 0, 0, 0⟩ (1 / 60)).1.blown_frames = (0 : Int) + 1 ∧
      (endFrame ⟨0, 0, 0, 0, 0⟩ (1 / 60)).2 = none ∧
      (endFrame ⟨0, 0, 0, 0, 0⟩ (1 / 60)).1.frame_left = 0) ∧
    ((1 / 60 : ℚ) ≤ VSYNC →
      (endFrame ⟨0, 0, 0, 0, 0⟩ (1 / 60)).1.blown_frames = 0 ∧
      (endFrame ⟨0, 0, 0, 0, 0⟩ (1 / 60)).1.frame_left = VSYNC - 1 / 60 ∧
      0 ≤ (endFrame ⟨0, 0, 0, 0, 0⟩ (1 / 60)).1.frame_left ∧
      ((1 / 60 : ℚ) < VSYNC → 0 < (endFrame ⟨0, 0, 0, 0, 0⟩ (1 / 60)).1.frame_left) ∧
      (endFrame ⟨0, 0, 0, 0, 0⟩ (1 / 60)).2 = some (VSYNC - 1 / 60)) :=
  C6_amended ⟨0, 0, 0, 0, 0⟩ (1 / 60) (some "boom")

lemma runTicks_frame_left (f : FrameData) (es : List ℚ) :
    (runTicks f es).frame_left =
      match (es.filter fun x => decide (x ≤ VSYNC)).getLast? with
      | some x => VSYNC - x
      | none => f.frame_left := by
  induction es generalizing f with
  | nil => rfl
  | cons e es ih =>
    have step : runTicks f (e :: es) = runTicks (endFrame f e).1 es := rfl
    rw [step, ih]
    by_cases he : e ≤ VSYNC
    · rw [List.filter_cons, if_pos (by simpa using he)]
      cases hfe : (es.filter fun x => decide (x ≤ VSYNC)).getLast? with
      | some x =>
        rw [List.getLast?_cons, hfe]
        simp
      | none =>
        rw [List.getLast?_cons, hfe]
        rw [endFrame_ok f e (not_lt.mpr he)]
        rfl
    · rw [List.filter_cons, if_neg (by simpa using he)]
      rw [endFrame_blown f e (not_le.mp he)]

/-- C10 counterexample.  A tick whose body takes exactly the `1/FPS`
budget is not blown, and `frame_left` (previously `5`) is overwritten with
the zero remainder: `frame_left` *is* set to a zero value, contradicting
the claim. -/
theorem C10_counterexample :
    (endFrame ⟨0, 0, 5, 0, 0⟩ VSYNC).1.frame_left = 0 ∧
    (endFrame ⟨0, 0, 5, 0, 0⟩ VSYNC).2 = some 0 := by
  rw [endFrame_ok _ _ (lt_irrefl VSYNC)]
  norm_num

/-- C10 (amended).  The blown-frame branch leaves `frame_left` unchanged,
and after any sequence of ticks from a fresh `FrameData`, `frame_left` is
the slack `1/FPS - e` of the last non-blown tick `e` (the initial `0.0`
when there is none); it is therefore never negative, but it is zero — not
positive — when the last non-blown tick used the budget exactly. -/
theorem C10_amended (f : FrameData) (e : ℚ) (es : List ℚ) (hb : VSYNC < e) :
    (endFrame f e).1.frame_left = f.frame_left ∧
    (runTicks ⟨0, 0, 0, 0, 0⟩ es).frame_left =
      (match (es.filter fun x => decide (x ≤ VSYNC)).getLast? with
       | some x => VSYNC - x
       | none => 0) ∧
    0 ≤ (runTicks ⟨0, 0, 0, 0, 0⟩ es).frame_left := by
  refine ⟨by rw [endFrame_blown f e hb], runTicks_frame_left _ es, ?_⟩
  rw [runTicks_frame_left]
  cases hfe : (es.filter fun x => decide (x ≤ VSYNC)).getLast? with
  | none => norm_num
  | some x =>
    have hx : x ∈ es.filter fun y => decide (y ≤ VSYNC) := by
      obtain ⟨hne, hxl⟩ := List.mem_getLast?_eq_getLast hfe
      rw [hxl]
      exact List.getLast_mem hne
    have hxle : x ≤ VSYNC := by
      have := (List.mem_filter.mp hx).2
      simpa using this
    exact sub_nonneg.mpr hxle

/-- Witness for `C10_amended` on a blown tick and a three-tick run. -/
theorem C10_amended_witness :
    (endFrame ⟨0, 0, 0, 0, 0⟩ 1).1.frame_left = (⟨0, 0, 0, 0, 0⟩ : FrameData).frame_left ∧
    (runTicks ⟨0, 0, 0, 0, 0⟩ [1 / 60, 1, 1 / 120]).frame_left =
      (match ([1 / 60, 1, 1 / 120].filter fun x => decide (x ≤ VSYNC)).getLast? with
       | some x => VSYNC - x
       | none => 0) ∧
    0 ≤ (runTicks ⟨0, 0, 0, 0, 0⟩ [1 / 60, 1, 1 / 120]).frame_left :=
  C10_amended ⟨0, 0, 0, 0, 0⟩ 1 [1 / 60, 1, 1 / 120] (by norm_num [VSYNC, FPS])



/-- C8 counterexample.  From the out-of-lock-step panel state "frame
shown, content hidden", two `toggle_visibility()` calls do not restore the
original state (they end with both panels shown). -/
theorem C8_counterexample :
    ViewVis.toggle_visibility
        (ViewVis.toggle_visibility ⟨false, some true⟩) ≠
      (⟨false, some true⟩ : ViewVis) := by
  decide

/-- C8 (amended).  After any single `toggle_visibility()` call the frame
and content panels are both shown or both hidden together; and for every
view whose panels agree (which holds at construction and, by the first
part, forever after), two calls restore the original state. -/
theorem C8_amended (v : ViewVis) :
    (v.toggle_visibility).lockstep ∧
    (v.lockstep → v.toggle_visibility.toggle_visibility = v) := by
  obtain ⟨fh, ch⟩ := v
  cases fh <;> rcases ch with _ | (_ | _) <;> decide

/-- Witness for `C8_amended` on a hidden view with a content panel. -/
theorem C8_amended_witness :
    ((⟨true, some true⟩ : ViewVis).toggle_visibility).lockstep ∧
    ((⟨true, some true⟩ : ViewVis).lockstep →
      (⟨true, some true⟩ : ViewVis).toggle_visibility.toggle_visibility =
        (⟨true, some true⟩ : ViewVis)) :=
  C8_amended ⟨true, some true⟩

/-- C9 counterexample.  At frame width `2` with title `"a"`, the drawn
title is `"…"` of length `1`, not the claimed `w - 2 = 0`; it exceeds the
frame's interior width. -/
theorem C9_counterexample :
    set_title 2 ['a'] = ['…'] ∧
    ¬ ((set_title 2 ['a']).length : Int) = 2 - 2 ∧
    2 - 2 < ((set_title 2 ['a']).length : Int) := by
  decide

/-- C9 (amended).  For frame widths `w ≥ 3`: a title of length at most
`w - 2` is drawn unchanged, and a longer title is drawn as its first
`w - 3` characters followed by the ellipsis, giving length exactly `w - 2`.
(For `w < 3` the code draws the bare ellipsis, which overflows.) -/
theorem C9_amended (w : Int) (t : List Char) (hw : 3 ≤ w) :
    (((t.length : Int) ≤ w - 2) → set_title w t = t) ∧
    ((w - 2 < (t.length : Int)) →
      set_title w t = t.take (w - 3).toNat ++ ['…'] ∧
      ((set_title w t).length : Int) = w - 2) := by
  constructor
  · intro hle
    unfold set_title
    dsimp only
    rw [if_neg (by omega)]
  · intro hgt
    have heq : set_title w t = t.take (w - 3).toNat ++ ['…'] := by
      unfold set_title pySliceTo
      dsimp only
      rw [if_pos (by omega : (w - 2) - (t.length : Int) < 0),
          if_pos (by omega : (w - 2) - (t.length : Int) - 1 < 0)]
      have harg : ((t.length : Int) + ((w - 2) - (t.length : Int) - 1)).toNat
          = (w - 3).toNat := by omega
      rw [harg]
    refine ⟨heq, ?_⟩
    rw [heq, List.length_append, List.length_take]
    simp only [List.length_singleton]
    omega

/-- Witness for `C9_amended`: width `10`, twelve-character title. -/
theorem C9_amended_witness :
    (3 : Int) ≤ 10 ∧
    ((((("0123456789ab".toList).length : Int) ≤ 10 - 2) →
        set_title 10 "0123456789ab".toList = "0123456789ab".toList) ∧
      ((10 - 2 < (("0123456789ab".toList).length : Int)) →
        set_title 10 "0123456789ab".toList =
          ("0123456789ab".toList).take ((10 : Int) - 3).toNat ++ ['…'] ∧
        ((set_title 10 "0123456789ab".toList).length : Int) = 10 - 2)) :=
  ⟨by decide, C9_amended 10 "0123456789ab".toList (by decide)⟩


/-- Single-step bounds preservation for `_Wanderer.update`. -/
lemma wanderer_update_bounds (v : Wanderer) (elapsed : ℚ) (sh sw : Int)
    (c : Direction) (hb : 0 ≤ v.y ∧ v.y < sh ∧ 0 ≤ v.x ∧ v.x < sw) :
    0 ≤ (v.update elapsed sh sw c).y ∧ (v.update elapsed sh sw c).y < sh ∧
      0 ≤ (v.update elapsed sh sw c).x ∧ (v.update elapsed sh sw c).x < sw := by
  unfold Wanderer.update
  dsimp only
  split
  · split
    · next hc => exact hc
    · exact hb
  · exact hb

/-- Single-step bounds preservation for `_Zipper.update`. -/
lemma zipper_update_bounds (z : Zipper) (elapsed : ℚ) (sh sw : Int)
    (c : Direction) (hb : 0 ≤ z.y ∧ z.y < sh ∧ 0 ≤ z.x ∧ z.x < sw) :
    0 ≤ (z.update elapsed sh sw c).y ∧ (z.update elapsed sh sw c).y < sh ∧
      0 ≤ (z.update elapsed sh sw c).x ∧ (z.update elapsed sh sw c).x < sw := by
  unfold Zipper.update
  dsimp only
  split
  · split
    · next hc => split <;> exact hc
    · split <;> exact hb
  · split <;> exact hb

/-- Single-step bounds preservation for `_Bouncer.update`. -/
lemma bouncer_update_bounds (b : Bouncer) (elapsed : ℚ) (sh sw : Int)
    (hb : 0 ≤ b.y ∧ b.y < sh ∧ 0 ≤ b.x ∧ b.x < sw) :
    0 ≤ (b.update elapsed sh sw).y ∧ (b.update elapsed sh sw).y < sh ∧
      0 ≤ (b.update elapsed sh sw).x ∧ (b.update elapsed sh sw).x < sw := by
  unfold Bouncer.update
  dsimp only
  split
  · split
    · exact hb
    · split
      · exact hb
      · next h1 h2 =>
        rw [not_or] at h1 h2
        exact ⟨not_lt.mp h1.1, not_le.mp h1.2, not_lt.mp h2.1, not_le.mp h2.2⟩
  · exact hb

/-- Single-step bounds preservation at the `Entity` level. -/
lemma Entity.update_inBounds (ent : Entity) (elapsed : ℚ) (h w : Int)
    (choice : Direction) (hb : ent.inBounds h w) :
    (ent.update elapsed h w choice).inBounds h w := by
  cases ent with
  | wanderer v => exact wanderer_update_bounds v elapsed h w choice hb
  | zipper z => exact zipper_update_bounds z elapsed h w choice hb
  | bouncer b => exact bouncer_update_bounds b elapsed h w hb

/-- A run of an entity's automaton: fold `update` over a list of
(elapsed, random-choice) steps with fixed bounds. -/
def updateSeq (ent : Entity) (h w : Int) (steps : List (ℚ × Direction)) :
    Entity :=
  steps.foldl (fun e s => e.update s.1 h w s.2) ent

/-- C4 (confirmed).  For each of the three automata and every sequence of
`update(elapsed, height, width)` calls with fixed bounds `height, width > 0`:
a position inside `[0,height) × [0,width)` before the updates is still
inside after them (and hence after each individual update, by
instantiating with a singleton sequence). -/
theorem C4_bounds (ent : Entity) (h w : Int) (steps : List (ℚ × Direction))
    (hh : 0 < h) (hw : 0 < w) (hb : ent.inBounds h w) :
    (updateSeq ent h w steps).inBounds h w := by
  induction steps generalizing ent with
  | nil => exact hb
  | cons s ss ih => exact ih _ (Entity.update_inBounds ent s.1 h w s.2 hb)

/-- Witness for `C4_bounds`: a Bouncer in a 1×1 world bounces forever and
stays at `(0,0)`. -/
theorem C4_bounds_witness :
    (0 : Int) < 1 ∧
    (Entity.bouncer (Bouncer.init 0 0)).inBounds 1 1 ∧
    (updateSeq (.bouncer (Bouncer.init 0 0)) 1 1
      [(150, .UP), (150, .UP), (150, .UP)]).inBounds 1 1 :=
  ⟨by decide, by decide,
   C4_bounds (.bouncer (Bouncer.init 0 0)) 1 1
     [(150, .UP), (150, .UP), (150, .UP)] (by decide) (by decide) (by decide)⟩

/-- C7 (as stated): the generated terrain has exactly `height*width` cells
and every cell is one of the seven glyph indices. -/
theorem C7_terrain (h w : Int) (g : RandStream) (hh : 0 ≤ h) (hw : 0 ≤ w) :
    (((SimpleMap.create g (h * w)).cells.length : Int) = h * w) ∧
    ∀ c ∈ (SimpleMap.create g (h * w)).cells, c ∈ CHAR_MAP := by
  constructor
  · show ((buildcells g (h * w)).length : Int) = h * w
    simp [buildcells, Int.toNat_of_nonneg (mul_nonneg hh hw)]
  · intro c hc
    rw [show (SimpleMap.create g (h * w)).cells = buildcells g (h * w) from rfl,
        buildcells] at hc
    obtain ⟨i, _, rfl⟩ := List.mem_map.mp hc
    have hlt : (g i) % CHAR_MAP.length < CHAR_MAP.length :=
      Nat.mod_lt _ (by decide)
    rw [getElem!_pos CHAR_MAP ((g i) % CHAR_MAP.length) hlt]
    exact List.getElem_mem hlt

/-- Witness for `C7_terrain` at `h = 2`, `w = 3`, `g = id`. -/
theorem C7_terrain_witness :
    (0 : Int) ≤ 2 ∧ (0 : Int) ≤ 3 ∧
    ((((SimpleMap.create (fun n => n) ((2 : Int) * 3)).cells.length : Int)
        = 2 * 3) ∧
      ∀ c ∈ (SimpleMap.create (fun n => n) ((2 : Int) * 3)).cells,
        c ∈ CHAR_MAP) :=
  ⟨by decide, by decide, C7_terrain 2 3 (fun n => n) (by decide) (by decide)⟩

/-- `create_map` on positive dimensions: the fully evaluated result. -/
lemma create_map_pos (s : Simulation) (g : RandStream) (h w : Int)
    (hh : 0 < h) (hw : 0 < w) :
    s.create_map g h w =
      .ok { entities := s.entities ++
              [.wanderer (Wanderer.init ((g ((h * w).toNat) : Int) % h)
                 ((g ((h * w).toNat + 1) : Int) % w)),
               .zipper (Zipper.init ((g ((h * w).toNat + 2) : Int) % h)
                 ((g ((h * w).toNat + 3) : Int) % w)),
               .bouncer (Bouncer.init ((g ((h * w).toNat + 4) : Int) % h)
                 ((g ((h * w).toNat + 5) : Int) % w))],
            world_map := SimpleMap.create g (h * w),
            height := h, width := w } := by
  have hh' : ¬ h ≤ 0 := not_le.mpr hh
  have hw' : ¬ w ≤ 0 := not_le.mpr hw
  unfold Simulation.create_map randrange
  dsimp only
  rw [if_neg hh', if_neg hw', if_neg hh', if_neg hw', if_neg hh', if_neg hw']
  rfl

/-- `create_map` on a non-positive dimension: the `ValueError` raised by the
first failing `randrange` call propagates. -/
lemma create_map_err (s : Simulation) (g : RandStream) (h w : Int)
    (hdeg : h ≤ 0 ∨ w ≤ 0) :
    s.create_map g h w = .error "empty range for randrange" := by
  unfold Simulation.create_map randrange
  dsimp only
  by_cases hh : h ≤ 0
  · rw [if_pos hh]
    rfl
  · have hw : w ≤ 0 := hdeg.resolve_left hh
    rw [if_neg hh, if_pos hw]
    rfl


/-- The result of two consecutive `create_map(5, 5)` calls on a fresh
simulation with the all-zeros random oracle, reported as the final number
of entities (`none` would mean a raised error). -/
def twoCreateCalls : Option ℕ :=
  match Simulation.init.create_map (fun _ => 0) 5 5 with
  | .ok s1 =>
    match s1.create_map (fun _ => 0) 5 5 with
    | .ok s2 => some s2.entities.length
    | .error _ => none
  | .error _ => none

/-- C2 counterexample.  `create_map` appends to `self._entities` without
clearing it, so after a second `create_map(5, 5)` call the collection has
six entities, not the claimed three. -/
theorem C2_counterexample :
    twoCreateCalls = some 6 ∧ twoCreateCalls ≠ some 3 := by
  constructor
  · rfl
  · intro hc
    rw [show twoCreateCalls = some 6 from rfl] at hc
    simp at hc

/-- C2 (amended).  Each successful `create_map(height, width)` call
*appends* exactly one Wanderer, one Zipper and one Bouncer (in that order),
each seeded inside `[0,height) × [0,width)`; entities accumulate across
calls, so only a call on a simulation with no entities (such as the first)
leaves exactly that three-entity roster. -/
theorem C2_amended (s : Simulation) (g : RandStream) (h w : Int)
    (s' : Simulation) (hok : s.create_map g h w = .ok s') :
    ∃ wa : Wanderer, ∃ za : Zipper, ∃ ba : Bouncer,
      s'.entities = s.entities ++
        [.wanderer wa, .zipper za, .bouncer ba] ∧
      Entity.inBounds (.wanderer wa) h w ∧
      Entity.inBounds (.zipper za) h w ∧
      Entity.inBounds (.bouncer ba) h w ∧
      (s.entities = [] →
        s'.entities = [.wanderer wa, .zipper za, .bouncer ba]) := by
  have hh : 0 < h := by
    by_contra hle
    rw [create_map_err s g h w (Or.inl (by omega))] at hok
    exact absurd hok (by simp)
  have hw : 0 < w := by
    by_contra hle
    rw [create_map_err s g h w (Or.inr (by omega))] at hok
    exact absurd hok (by simp)
  rw [create_map_pos s g h w hh hw] at hok
  obtain rfl := (Except.ok.inj hok).symm
  have hmod : ∀ i : ℕ, ∀ n : Int, 0 < n →
      0 ≤ ((g i : Int) % n) ∧ ((g i : Int) % n) < n := by
    intro i n hn
    exact ⟨Int.emod_nonneg _ (ne_of_gt hn), Int.emod_lt_of_pos _ hn⟩
  refine ⟨_, _, _, rfl, ?_, ?_, ?_, fun he => by rw [he]; rfl⟩
  · obtain ⟨a1, a2⟩ := hmod ((h * w).toNat) h hh
    obtain ⟨b1, b2⟩ := hmod ((h * w).toNat + 1) w hw
    exact ⟨a1, a2, b1, b2⟩
  · obtain ⟨a1, a2⟩ := hmod ((h * w).toNat + 2) h hh
    obtain ⟨b1, b2⟩ := hmod ((h * w).toNat + 3) w hw
    exact ⟨a1, a2, b1, b2⟩
  · obtain ⟨a1, a2⟩ := hmod ((h * w).toNat + 4) h hh
    obtain ⟨b1, b2⟩ := hmod ((h * w).toNat + 5) w hw
    exact ⟨a1, a2, b1, b2⟩

/-- The simulation produced by one `create_map(5, 5)` call on a fresh
simulation with the all-zeros random oracle. -/
def simAfterOneCall : Simulation :=
  { entities := [.wanderer (Wanderer.init 0 0), .zipper (Zipper.init 0 0),
                 .bouncer (Bouncer.init 0 0)],
    world_map := ⟨25, List.replicate 25 0x20⟩, height := 5, width := 5 }

/-- Witness for `C2_amended`: the first call on a fresh simulation. -/
theorem C2_amended_witness :
    ∃ wa : Wanderer, ∃ za : Zipper, ∃ ba : Bouncer,
      simAfterOneCall.entities = Simulation.init.entities ++
        [.wanderer wa, .zipper za, .bouncer ba] ∧
      Entity.inBounds (.wanderer wa) 5 5 ∧
      Entity.inBounds (.zipper za) 5 5 ∧
      Entity.inBounds (.bouncer ba) 5 5 ∧
      (Simulation.init.entities = [] →
        simAfterOneCall.entities = [.wanderer wa, .zipper za, .bouncer ba]) :=
  C2_amended Simulation.init (fun _ => 0) 5 5 simAfterOneCall rfl

/-- C3 counterexample.  `create_map(0, 5)` — a degenerate request with
`height*width = 0` — does not degrade to an empty grid: it raises
`ValueError` from `random.randrange(0)` while seeding the entities. -/
theorem C3_counterexample :
    Simulation.init.create_map (fun _ => 0) 0 5 =
      .error "empty range for randrange" ∧
    (0 : Int) * 5 ≤ 0 :=
  ⟨create_map_err _ _ _ _ (Or.inl le_rfl), by decide⟩

/-- C3 (amended).  For `height*width ≤ 0` the map generator itself does
yield an empty cell sequence without error, but `Simulation.create_map`
then raises `ValueError` from the first `randrange` call on the
non-positive dimension, for every starting state. -/
theorem C3_amended (h w : Int) (g : RandStream) (hdeg : h * w ≤ 0) :
    (SimpleMap.create g (h * w)).cells = [] ∧
    ∀ s : Simulation,
      s.create_map g h w = .error "empty range for randrange" := by
  have hcase : h ≤ 0 ∨ w ≤ 0 := by
    by_contra hc
    push_neg at hc
    exact absurd hdeg (not_le.mpr (mul_pos hc.1 hc.2))
  constructor
  · show buildcells g (h * w) = []
    simp [buildcells, Int.toNat_of_nonpos hdeg]
  · intro s
    exact create_map_err s g h w hcase

/-- Witness for `C3_amended` at `height = 0`, `width = 5`. -/
theorem C3_amended_witness :
    (0 : Int) * 5 ≤ 0 ∧
    ((SimpleMap.create (fun _ => 0) ((0 : Int) * 5)).cells = [] ∧
      ∀ s : Simulation,
        s.create_map (fun _ => 0) 0 5 =
          .error "empty range for randrange") :=
  ⟨by decide, C3_amended 0 5 (fun _ => 0) (by decide)⟩


/-- The flat index as a natural number (all entities in bounds have a
nonnegative flat index). -/
def nFlatIdx (e : Entity) (width : Int) : ℕ := (flatIdx e width).toNat

/-- The total-function core of `visible_map`: write each entity's glyph at
its (in-range) flat index, in roster order. -/
def visTotal (cells : List Int) (es : List Entity) (width : Int) : List Int :=
  es.foldl (fun t e => t.set (nFlatIdx e width) e.render_id) cells

lemma visTotal_length (cells : List Int) (es : List Entity) (width : Int) :
    (visTotal cells es width).length = cells.length := by
  induction es generalizing cells with
  | nil => rfl
  | cons e es ih =>
    rw [show visTotal cells (e :: es) width
          = visTotal (cells.set (nFlatIdx e width) e.render_id) es width
        from rfl,
        ih, List.length_set]

lemma listSetItem_of_nonneg_lt (l : List Int) (i : Int) (v : Int)
    (h0 : 0 ≤ i) (hl : i < (l.length : Int)) :
    listSetItem l i v = some (l.set i.toNat v) := by
  unfold listSetItem
  rw [if_pos ⟨h0, hl⟩]

/-- Under the in-bounds hypothesis every item assignment of `visible_map`
is in range, so no `IndexError` occurs and the result is `visTotal`. -/
lemma visible_map_eq_visTotal (s : Simulation)
    (hidx : ∀ e ∈ s.entities,
      0 ≤ flatIdx e s.width ∧
        flatIdx e s.width < (s.world_map.cells.length : Int)) :
    s.visible_map = some (visTotal s.world_map.cells s.entities s.width) := by
  suffices hgen : ∀ (es : List Entity) (cells : List Int),
      (∀ e ∈ es, 0 ≤ flatIdx e s.width ∧
        flatIdx e s.width < (cells.length : Int)) →
      es.foldlM
          (fun tiles e => listSetItem tiles (flatIdx e s.width) e.render_id)
          cells
        = some (visTotal cells es s.width) by
    exact hgen _ _ hidx
  intro es
  induction es with
  | nil => intro cells _; rfl
  | cons e es ih =>
    intro cells hi
    have he := hi e (List.mem_cons_self e es)
    rw [List.foldlM_cons, listSetItem_of_nonneg_lt _ _ _ he.1 he.2]
    show (es.foldlM
        (fun tiles e => listSetItem tiles (flatIdx e s.width) e.render_id)
        (cells.set (flatIdx e s.width).toNat e.render_id)) = _
    exact ih _ (fun e' he' => by
      have := hi e' (List.mem_cons_of_mem _ he')
      simpa [List.length_set] using this)

/-- The value of the composited grid at index `i`: the glyph of the last
entity whose flat index is `i`, or the terrain cell when there is none. -/
lemma visTotal_getElem (wdt : Int) (es : List Entity) (cells : List Int)
    (i : ℕ) (hi : i < cells.length)
    (hidx : ∀ e ∈ es, nFlatIdx e wdt < cells.length) :
    (visTotal cells es wdt)[i]! =
      match es.reverse.find? (fun e => nFlatIdx e wdt == i) with
      | some e => e.render_id
      | none => cells[i]! := by
  induction es generalizing cells with
  | nil => rfl
  | cons e es ih =>
    rw [show visTotal cells (e :: es) wdt
          = visTotal (cells.set (nFlatIdx e wdt) e.render_id) es wdt
        from rfl,
        ih (cells.set (nFlatIdx e wdt) e.render_id)
          (by rw [List.length_set]; exact hi)
          (fun e' he' => by
            rw [List.length_set]
            exact hidx e' (List.mem_cons_of_mem _ he')),
        List.reverse_cons, List.find?_append]
    cases hfind : es.reverse.find? (fun e' => nFlatIdx e' wdt == i) with
    | some e' => rfl
    | none =>
      by_cases hp : nFlatIdx e wdt = i
      · rw [List.find?_cons_of_pos _ (by simpa using hp)]
        subst hp
        rw [getElem!_pos (cells.set (nFlatIdx e wdt) e.render_id)
              (nFlatIdx e wdt) (by rw [List.length_set]; exact hi),
            List.getElem_set_self]
        rfl
      · rw [List.find?_cons_of_neg _ (by simpa using hp), List.find?_nil]
        show (cells.set (nFlatIdx e wdt) e.render_id)[i]! = cells[i]!
        rw [getElem!_pos (cells.set (nFlatIdx e wdt) e.render_id) i
              (by rw [List.length_set]; exact hi),
            getElem!_pos cells i hi]
        exact List.getElem_set_ne hp _

/-- No entity glyph is a terrain glyph: `0x40` (Wanderer), `0xe8` (Bouncer)
and the four Zipper arrows `0x18..0x1b` are disjoint from `_CHAR_MAP`. -/
lemma render_id_not_in_CHAR_MAP (e : Entity) : e.render_id ∉ CHAR_MAP := by
  cases e with
  | wanderer v => simp [Entity.render_id, Wanderer.render_id, CHAR_MAP]
  | zipper z =>
    cases hz : z.direction <;>
      simp [Entity.render_id, Zipper.render_id, hz, Direction.value, CHAR_MAP]
  | bouncer b => simp [Entity.render_id, Bouncer.render_id, CHAR_MAP]

lemma toFinset_map_eq_image {α β : Type} [DecidableEq α] [DecidableEq β]
    (l : List α) (f : α → β) :
    (l.map f).toFinset = l.toFinset.image f := by
  ext b
  simp [List.mem_map]


/-- C5 (confirmed).  For every simulation state whose terrain comes from
the map generator (cells drawn from `_CHAR_MAP`, length `height*width`)
and whose entities all lie in bounds: `visible_map` succeeds, has the same
length as the terrain, differs from it exactly at the set of entity flat
indices `x + y*width` (each holding the glyph of the last entity at that
index, later entities overwriting earlier ones), and the number of
differing indices equals the number of distinct entity positions. -/
theorem C5_visible_map (s : Simulation)
    (hlen : (s.world_map.cells.length : Int) = s.height * s.width)
    (hcells : ∀ c ∈ s.world_map.cells, c ∈ CHAR_MAP)
    (hent : ∀ e ∈ s.entities, e.inBounds s.height s.width) :
    ∃ v, s.visible_map = some v ∧
      v.length = s.world_map.cells.length ∧
      (∀ i : ℕ, i < v.length →
        (v[i]! ≠ s.world_map.cells[i]! ↔
          ∃ e ∈ s.entities, nFlatIdx e s.width = i)) ∧
      (∀ (i : ℕ) (e : Entity),
        s.entities.reverse.find? (fun e' => nFlatIdx e' s.width == i)
          = some e →
        v[i]! = e.render_id) ∧
      (Finset.range s.world_map.cells.length).filter
          (fun i => v[i]! ≠ s.world_map.cells[i]!)
        = (s.entities.map fun e => nFlatIdx e s.width).toFinset ∧
      ((Finset.range s.world_map.cells.length).filter
          (fun i => v[i]! ≠ s.world_map.cells[i]!)).card
        = (s.entities.map fun e => (e.y, e.x)).toFinset.card := by
  have hidx : ∀ e ∈ s.entities,
      0 ≤ flatIdx e s.width ∧
        flatIdx e s.width < (s.world_map.cells.length : Int) := by
    intro e he
    obtain ⟨hy0, hyh, hx0, hxw⟩ := hent e he
    have hw0 : 0 < s.width := lt_of_le_of_lt hx0 hxw
    constructor
    · exact add_nonneg hx0 (mul_nonneg hy0 (le_of_lt hw0))
    · rw [hlen]
      show e.x + e.y * s.width < s.height * s.width
      calc e.x + e.y * s.width < s.width + e.y * s.width := by linarith
        _ = (e.y + 1) * s.width := by ring
        _ ≤ s.height * s.width :=
            mul_le_mul_of_nonneg_right (by omega) (le_of_lt hw0)
  have hidxN : ∀ e ∈ s.entities,
      nFlatIdx e s.width < s.world_map.cells.length := by
    intro e he
    have h := hidx e he
    unfold nFlatIdx
    omega
  have hLmem : ∀ i : ℕ, i < s.world_map.cells.length →
      s.world_map.cells[i]! ∈ CHAR_MAP := by
    intro i hi
    rw [getElem!_pos s.world_map.cells i hi]
    exact hcells _ (List.getElem_mem hi)
  -- the core "differs exactly at entity flat indices" equivalence
  have hb : ∀ i : ℕ, i < s.world_map.cells.length →
      ((visTotal s.world_map.cells s.entities s.width)[i]!
          ≠ s.world_map.cells[i]! ↔
        ∃ e ∈ s.entities, nFlatIdx e s.width = i) := by
    intro i hi
    rw [visTotal_getElem s.width s.entities s.world_map.cells i hi hidxN]
    cases hf : s.entities.reverse.find? (fun e' => nFlatIdx e' s.width == i)
      with
    | some e =>
      dsimp only
      have hmem : e ∈ s.entities :=
        List.mem_reverse.mp (List.mem_of_find?_eq_some hf)
      have hpe : nFlatIdx e s.width = i := by
        simpa using List.find?_some hf
      constructor
      · intro _
        exact ⟨e, hmem, hpe⟩
      · intro _
        intro heq
        exact render_id_not_in_CHAR_MAP e (heq ▸ hLmem i hi)
    | none =>
      dsimp only
      constructor
      · intro hne
        exact absurd rfl hne
      · rintro ⟨e, he, hpe⟩
        have := List.find?_eq_none.mp hf e (List.mem_reverse.mpr he)
        exact absurd (by simpa using hpe) this
  have hset : (Finset.range s.world_map.cells.length).filter
        (fun i => (visTotal s.world_map.cells s.entities s.width)[i]!
          ≠ s.world_map.cells[i]!)
      = (s.entities.map fun e => nFlatIdx e s.width).toFinset := by
    ext i
    simp only [Finset.mem_filter, Finset.mem_range, List.mem_toFinset,
      List.mem_map]
    constructor
    · rintro ⟨hi, hne⟩
      exact (hb i hi).mp hne
    · rintro ⟨e, he, rfl⟩
      exact ⟨hidxN e he, (hb _ (hidxN e he)).mpr ⟨e, he, rfl⟩⟩
  refine ⟨visTotal s.world_map.cells s.entities s.width,
    visible_map_eq_visTotal s hidx,
    visTotal_length s.world_map.cells s.entities s.width, ?_, ?_, hset, ?_⟩
  · intro i hi
    exact hb i (by
      rw [visTotal_length s.world_map.cells s.entities s.width] at hi
      exact hi)
  · intro i e hf
    have hmem : e ∈ s.entities :=
      List.mem_reverse.mp (List.mem_of_find?_eq_some hf)
    have hpe : nFlatIdx e s.width = i := by
      simpa using List.find?_some hf
    have hilen : i < s.world_map.cells.length := hpe ▸ hidxN e hmem
    rw [visTotal_getElem s.width s.entities s.world_map.cells i hilen hidxN,
        hf]
  · have hcomp : (s.entities.map fun e => nFlatIdx e s.width)
        = (s.entities.map fun e => (e.y, e.x)).map
            (fun p => (p.2 + p.1 * s.width).toNat) := by
      rw [List.map_map]
      rfl
    rw [hset, hcomp, toFinset_map_eq_image]
    apply Finset.card_image_of_injOn
    intro p hp q hq hpq
    rw [Finset.mem_coe, List.mem_toFinset] at hp hq
    obtain ⟨ep, hep, hpe⟩ := List.mem_map.mp hp
    obtain ⟨e2, he2, hqe⟩ := List.mem_map.mp hq
    obtain ⟨hy0p, hyhp, hx0p, hxwp⟩ := hent ep hep
    obtain ⟨hy0q, hyhq, hx0q, hxwq⟩ := hent e2 he2
    subst hpe hqe
    dsimp only at hpq
    have hW : 0 < s.width := lt_of_le_of_lt hx0p hxwp
    have hint : ep.x + ep.y * s.width = e2.x + e2.y * s.width := by
      have h1 : 0 ≤ ep.x + ep.y * s.width :=
        add_nonneg hx0p (mul_nonneg hy0p (le_of_lt hW))
      have h2 : 0 ≤ e2.x + e2.y * s.width :=
        add_nonneg hx0q (mul_nonneg hy0q (le_of_lt hW))
      omega
    have hx : ep.x = e2.x := by
      have hm := congrArg (fun t => t % s.width) hint
      dsimp only at hm
      rw [Int.add_mul_emod_self, Int.add_mul_emod_self] at hm
      rwa [Int.emod_eq_of_lt hx0p hxwp, Int.emod_eq_of_lt hx0q hxwq] at hm
    have hy : ep.y = e2.y := by
      have hsum := hint
      rw [hx] at hsum
      exact mul_right_cancel₀ (ne_of_gt hW) (add_left_cancel hsum)
    rw [hx, hy]


/-- A concrete simulation state: a 2×2 all-blank map with a Wanderer and a
Bouncer sharing cell `(0,0)` (so the two flat indices coincide). -/
def simDemo : Simulation :=
  { entities := [.wanderer (Wanderer.init 0 0), .bouncer (Bouncer.init 0 0)],
    world_map := ⟨4, [0x20, 0x20, 0x20, 0x20]⟩, height := 2, width := 2 }

/-- Witness for `C5_visible_map` on `simDemo` (two entities sharing a
cell: one differing index). -/
theorem C5_visible_map_witness :
    ((simDemo.world_map.cells.length : Int) = simDemo.height * simDemo.width) ∧
    (∀ c ∈ simDemo.world_map.cells, c ∈ CHAR_MAP) ∧
    (∀ e ∈ simDemo.entities, e.inBounds simDemo.height simDemo.width) ∧
    (∃ v, simDemo.visible_map = some v ∧
      v.length = simDemo.world_map.cells.length ∧
      (∀ i : ℕ, i < v.length →
        (v[i]! ≠ simDemo.world_map.cells[i]! ↔
          ∃ e ∈ simDemo.entities, nFlatIdx e simDemo.width = i)) ∧
      (∀ (i : ℕ) (e : Entity),
        simDemo.entities.reverse.find?
            (fun e' => nFlatIdx e' simDemo.width == i) = some e →
        v[i]! = e.render_id) ∧
      (Finset.range simDemo.world_map.cells.length).filter
          (fun i => v[i]! ≠ simDemo.world_map.cells[i]!)
        = (simDemo.entities.map fun e => nFlatIdx e simDemo.width).toFinset ∧
      ((Finset.range simDemo.world_map.cells.length).filter
          (fun i => v[i]! ≠ simDemo.world_map.cells[i]!)).card
        = (simDemo.entities.map fun e => (e.y, e.x)).toFinset.card) :=
  ⟨by decide, by decide, by decide,
   C5_visible_map simDemo (by decide) (by decide) (by decide)⟩

end Terra
